import Mathlib

/-!
Shallow embedding of the heavy-metal-compass core pipeline:
validation (DataUpload.tsx), index computation and categorization
(CalculationEngine.tsx), and quality distribution aggregation
(ResultsVisualization.tsx).

Numbers are modeled as exact rationals; the pollution load index, which
takes an n-th root, lives in the real numbers (hence a few noncomputable
definitions: real-number branching and real powers have no executable
form). The wall clock read by the validator for the sampleDate default is
surfaced as an explicit `today` parameter.
-/

/-- Water quality category, the 5-value enumeration returned by
`categorizeWaterQuality` in CalculationEngine.tsx. -/
inductive Quality where
  | excellent
  | good
  | moderate
  | poor
  | unsuitable
deriving DecidableEq, Repr, Fintype

/-- Severity rank of a category: excellent < good < moderate < poor <
unsuitable, encoded 0..4. -/
def Quality.severity : Quality → ℕ
  | .excellent => 0
  | .good => 1
  | .moderate => 2
  | .poor => 3
  | .unsuitable => 4

/-- The results attached to a sample by `performCalculations`: field
`hmpiResults` of a WaterSample. `pli` is real because it is an n-th
root. -/
structure HmpiResults where
  hpi : ℚ
  pli : ℝ
  cf : ℚ
  qualityCategory : Quality

/-- A water sample record (the WaterSample type from Dashboard.tsx as
used by all four components): `hmpiResults` is absent until the
calculation step runs. `metals` is the association list built by the
validator, in insertion order As, Cd, Cr, Cu, Fe, Mn, Ni, Pb, Zn. -/
structure WaterSample where
  id : String
  latitude : ℚ
  longitude : ℚ
  sampleDate : String
  metals : List (String × ℚ)
  hmpiResults : Option HmpiResults

/-- A raw parsed CSV row as handed to `validateData`. `keys` is the list
of column names present in the row (used only by the missing-column
check). The numeric fields hold the result of `parseFloat` on the raw
cell: `none` models NaN (missing key or unparseable text). `sampleDate`
is the raw string, `""` modeling an absent or empty cell. `metal` is the
indexed access `row[metal]` for the nine metal columns. -/
structure RawRow where
  keys : List String
  latitude : Option ℚ
  longitude : Option ℚ
  sampleDate : String
  metal : String → Option ℚ

/-- The record returned by `validateData`. -/
structure ValidationResult where
  isValid : Bool
  errors : List String
  samples : List WaterSample

attribute [ext] ValidationResult

/-- The `requiredColumns` array of DataUpload.tsx. -/
def requiredColumns : List String :=
  ["latitude", "longitude", "sampleDate", "As", "Cd", "Cr", "Cu", "Fe", "Mn", "Ni", "Pb", "Zn"]

/-- The `metals` array iterated inside `validateData`. -/
def metalNames : List String :=
  ["As", "Cd", "Cr", "Cu", "Fe", "Mn", "Ni", "Pb", "Zn"]

/-- The WHO_STANDARDS lookup table of CalculationEngine.tsx; `none`
models an absent key (undefined lookup). -/
def WHO_STANDARDS : String → Option ℚ := fun m =>
  if m = "As" then some 0.01
  else if m = "Cd" then some 0.003
  else if m = "Cr" then some 0.05
  else if m = "Cu" then some 2.0
  else if m = "Fe" then some 0.3
  else if m = "Mn" then some 0.1
  else if m = "Ni" then some 0.07
  else if m = "Pb" then some 0.01
  else if m = "Zn" then some 3.0
  else none

/-- The METAL_WEIGHTS lookup table of CalculationEngine.tsx. -/
def METAL_WEIGHTS : String → Option ℚ := fun m =>
  if m ∈ metalNames then some 1.0 else none

/-- One step of the Object.entries loop in `calculateHPI`: the
accumulator carries (weightedSum, totalWeight); a metal contributes only
when its standard and weight are defined and truthy (nonzero). -/
def hpiStep (acc : ℚ × ℚ) (e : String × ℚ) : ℚ × ℚ :=
  match WHO_STANDARDS e.1, METAL_WEIGHTS e.1 with
  | some standard, some weight =>
    if standard ≠ 0 ∧ weight ≠ 0 then
      (acc.1 + weight * (e.2 / standard * 100), acc.2 + weight)
    else acc
  | _, _ => acc

/-- `calculateHPI` from CalculationEngine.tsx: weighted mean of the
sub-indices (concentration / standard * 100); 0 when no metal matches. -/
def calculateHPI (metals : List (String × ℚ)) : ℚ :=
  let acc := metals.foldl hpiStep (0, 0)
  if 0 < acc.2 then acc.1 / acc.2 else 0

/-- One step of the Object.entries loop in `calculatePLI`: the
accumulator carries (product, count); a metal contributes its
contamination factor concentration / standard when its standard is
defined and truthy (nonzero). -/
def pliStep (acc : ℚ × ℕ) (e : String × ℚ) : ℚ × ℕ :=
  match WHO_STANDARDS e.1 with
  | some standard =>
    if standard ≠ 0 then (acc.1 * (e.2 / standard), acc.2 + 1) else acc
  | none => acc

/-- The (product of contamination factors, matched count) pair computed
by the loop of `calculatePLI`. -/
def pliData (metals : List (String × ℚ)) : ℚ × ℕ :=
  metals.foldl pliStep (1, 0)

/-- `calculatePLI` from CalculationEngine.tsx: the count-th root of the
product of contamination factors (Math.pow(product, 1 / count)); 0 when
no metal matches. -/
noncomputable def calculatePLI (metals : List (String × ℚ)) : ℝ :=
  let d := pliData metals
  if 0 < d.2 then (d.1 : ℝ) ^ ((1 : ℝ) / (d.2 : ℝ)) else 0

/-- One step of the Object.entries loop in `calculateCF`: the
accumulator carries (totalCF, count). -/
def cfStep (acc : ℚ × ℕ) (e : String × ℚ) : ℚ × ℕ :=
  match WHO_STANDARDS e.1 with
  | some standard =>
    if standard ≠ 0 then (acc.1 + e.2 / standard, acc.2 + 1) else acc
  | none => acc

/-- `calculateCF` from CalculationEngine.tsx: arithmetic mean of the
contamination factors over matched metals; 0 when no metal matches. -/
def calculateCF (metals : List (String × ℚ)) : ℚ :=
  let acc := metals.foldl cfStep (0, 0)
  if 0 < acc.2 then acc.1 / (acc.2 : ℚ) else 0

/-- `categorizeWaterQuality` from CalculationEngine.tsx: the ordered
cascade on the (hpi, pli) pair, first match wins. -/
noncomputable def categorizeWaterQuality (hpi pli : ℝ) : Quality :=
  if hpi < 25 ∧ pli < 1 then .excellent
  else if hpi < 50 ∧ pli < 2 then .good
  else if hpi < 75 ∧ pli < 3 then .moderate
  else if hpi < 100 ∧ pli < 5 then .poor
  else .unsuitable

/-- The selectedIndices component state of CalculationEngine.tsx (which
indices the user enabled; initial state is hpi and pli on, cf off). -/
structure SelectedIndices where
  hpi : Bool
  pli : Bool
  cf : Bool

/-- The per-sample body of the map inside `performCalculations`: each
index is computed from the sample metals when enabled and is 0
otherwise; the category is derived from the resulting hpi and pli. -/
noncomputable def calcResults (sel : SelectedIndices) (metals : List (String × ℚ)) : HmpiResults :=
  let hpi : ℚ := if sel.hpi then calculateHPI metals else 0
  let pli : ℝ := if sel.pli then calculatePLI metals else 0
  let cf : ℚ := if sel.cf then calculateCF metals else 0
  { hpi := hpi, pli := pli, cf := cf, qualityCategory := categorizeWaterQuality (hpi : ℝ) pli }

/-- `performCalculations` from CalculationEngine.tsx (the data path:
progress bars and toasts are presentation): every sample gets
hmpiResults attached, computed from its metals and the selected-index
state. -/
noncomputable def performCalculations (sel : SelectedIndices) (samples : List WaterSample) :
    List WaterSample :=
  samples.map fun s => { s with hmpiResults := some (calcResults sel s.metals) }

/-- The row-local diagnostics of `validateData` for the row at position
`index` (0-based; messages are 1-based): latitude check, longitude
check, then one check per metal in order. -/
def rowErrors (index : ℕ) (row : RawRow) : List String :=
  (match row.latitude with
   | none => ["Invalid latitude at row " ++ toString (index + 1)]
   | some lat =>
     if lat < -90 ∨ 90 < lat then ["Invalid latitude at row " ++ toString (index + 1)] else []) ++
  (match row.longitude with
   | none => ["Invalid longitude at row " ++ toString (index + 1)]
   | some lng =>
     if lng < -180 ∨ 180 < lng then ["Invalid longitude at row " ++ toString (index + 1)] else []) ++
  metalNames.filterMap fun m =>
    match row.metal m with
    | none => some ("Invalid " ++ m ++ " concentration at row " ++ toString (index + 1))
    | some v =>
      if v < 0 then some ("Invalid " ++ m ++ " concentration at row " ++ toString (index + 1))
      else none

/-- The metalValues object accumulated by the loop of `validateData`:
each metal that parses to a nonnegative value, in canonical order. -/
def metalValues (row : RawRow) : List (String × ℚ) :=
  metalNames.filterMap fun m =>
    match row.metal m with
    | none => none
    | some v => if v < 0 then none else some (m, v)

/-- The sample object pushed by `validateData` for an accepted row:
synthesized id from the original row position, parsed coordinates, the
sampleDate defaulted to the current date when empty or absent. -/
def mkSample (today : String) (index : ℕ) (row : RawRow) : WaterSample :=
  { id := "sample_" ++ toString (index + 1)
    latitude := row.latitude.getD 0
    longitude := row.longitude.getD 0
    sampleDate := if row.sampleDate = "" then today else row.sampleDate
    metals := metalValues row
    hmpiResults := none }

/-- The missing-required-columns diagnostic of `validateData`, computed
from the keys of the first row only. -/
def headerDiagnostics (firstRow : RawRow) : List String :=
  let missingColumns := requiredColumns.filter fun col => !(firstRow.keys.contains col)
  if missingColumns.isEmpty then []
  else ["Missing required columns: " ++ String.intercalate ", " missingColumns]

/-- One iteration of the forEach over rows in `validateData`: the
accumulator carries (errors so far, samples so far); a row with no
row-local diagnostics is appended as a sample, otherwise its diagnostics
are appended to the error list. -/
def valStep (today : String) (acc : List String × List WaterSample) (ir : ℕ × RawRow) :
    List String × List WaterSample :=
  let errs := rowErrors ir.1 ir.2
  if errs.isEmpty then (acc.1, acc.2 ++ [mkSample today ir.1 ir.2])
  else (acc.1 ++ errs, acc.2)

/-- `validateData` from DataUpload.tsx. The current date read from the
wall clock (new Date().toISOString().split) is surfaced as the explicit
parameter `today`. Empty input short-circuits with the no-data
diagnostic; otherwise the header check runs on the first row and every
row is validated independently in order. -/
def validateData (today : String) (data : List RawRow) : ValidationResult :=
  match data with
  | [] =>
    { isValid := false, errors := ["No data found in the uploaded file"], samples := [] }
  | firstRow :: _ =>
    let headerErrors := headerDiagnostics firstRow
    let acc := data.enum.foldl (valStep today) ([], [])
    let errors := headerErrors ++ acc.1
    { isValid := errors.isEmpty, errors := errors, samples := acc.2 }

/-- Rounding to one decimal as done by toFixed(1) on a nonnegative
value: nearest multiple of 1/10, ties away from zero. -/
def toFixed1 (q : ℚ) : ℚ := (round (q * 10) : ℤ) / 10

/-- One step of building the category record in `qualityDistribution`:
JS object keys appear in first-assignment order, so a category is
appended the first time it is seen. -/
def firstSeenIns (acc : List Quality) (c : Quality) : List Quality :=
  if c ∈ acc then acc else acc ++ [c]

/-- The first-seen order of the categories of a batch: the key order of
the distribution object built by the reduce in `qualityDistribution`. -/
def firstSeen (l : List Quality) : List Quality :=
  l.foldl firstSeenIns []

/-- One entry of the quality distribution of ResultsVisualization.tsx
(the display color and capitalization are presentation and omitted);
`percentage` is the numeric value of (count / total * 100).toFixed(1). -/
structure DistEntry where
  category : Quality
  count : ℕ
  percentage : ℚ
deriving DecidableEq, Repr

/-- `qualityDistribution` from ResultsVisualization.tsx: group the
samples that carry results by category (first-seen order), with count
and percentage of the filtered batch. -/
def qualityDistribution (samples : List WaterSample) : List DistEntry :=
  let processed := samples.filterMap fun s => s.hmpiResults
  let cats := processed.map fun r => r.qualityCategory
  (firstSeen cats).map fun c =>
    { category := c
      count := cats.count c
      percentage := toFixed1 ((cats.count c : ℚ) / (processed.length : ℚ) * 100) }

/-- The metals panel of spec property 4: every concentration exactly
double its WHO standard, in the canonical column order. -/
def panelDouble : List (String × ℚ) :=
  [("As", 0.02), ("Cd", 0.006), ("Cr", 0.1), ("Cu", 4.0), ("Fe", 0.6),
   ("Mn", 0.2), ("Ni", 0.14), ("Pb", 0.02), ("Zn", 6.0)]

/-- A sample carrying the double-standard panel, used to exercise the
calculation step. -/
def sampleDouble : WaterSample :=
  { id := "sample_1", latitude := 10, longitude := 20, sampleDate := "2024-03-01",
    metals := panelDouble, hmpiResults := none }

/-- A fully valid raw row (all columns present, coordinates in range,
all metal cells 0.01). -/
def goodRow : RawRow :=
  { keys := requiredColumns
    latitude := some 12.5
    longitude := some 77.5
    sampleDate := "2024-03-01"
    metal := fun m => if metalNames.contains m then some 0.01 else none }

/-- The same row with latitude 91, the out-of-range example of spec
property 2. -/
def badRow : RawRow :=
  { goodRow with latitude := some 91 }

/-- A valid row whose sampleDate cell is empty, so the validator falls
back to the current date. -/
def datelessRow : RawRow :=
  { goodRow with sampleDate := "" }

/-- A sample with the same metal panel as sampleDouble but a different
identity, for the equal-panels-equal-results check. -/
def sampleDoubleAlt : WaterSample :=
  { id := "sample_2", latitude := -5, longitude := 60, sampleDate := "2024-04-01",
    metals := panelDouble, hmpiResults := none }

/-- A panel in which a matched metal (As) has concentration 0 while
another matched metal is positive. -/
def panelWithZero : List (String × ℚ) :=
  [("As", 0), ("Cd", 0.006)]

/-- A results record carrying a given category (hpi, pli, cf zeroed),
used to build concrete aggregation batches. -/
def mkRes (q : Quality) : HmpiResults :=
  { hpi := 0, pli := 0, cf := 0, qualityCategory := q }

/-- A processed sample carrying a given category. -/
def mkCS (q : Quality) : WaterSample :=
  { id := "s", latitude := 0, longitude := 0, sampleDate := "2024-01-01", metals := [],
    hmpiResults := some (mkRes q) }

/-- Sixteen processed samples: one each of excellent, good, moderate and
poor, and twelve unsuitable. Each of the four singleton categories is
1/16 = 6.25 percent, rounding to 6.3; the large one is exactly 75.0. -/
def batch16 : List WaterSample :=
  [mkCS .excellent, mkCS .good, mkCS .moderate, mkCS .poor] ++
    List.replicate 12 (mkCS .unsuitable)

/-- A single processed sample, for exercising the distribution bound. -/
def batchOne : List WaterSample :=
  [mkCS .good]

/-! ## Helper lemmas: the classifier cascade and its severity levels -/

theorem severity_le_four (q : Quality) : q.severity ≤ 4 := by
  cases q <;> simp [Quality.severity]

theorem severity_cat_le_zero_iff (h p : ℝ) :
    (categorizeWaterQuality h p).severity ≤ 0 ↔ h < 25 ∧ p < 1 := by
  unfold categorizeWaterQuality
  split_ifs <;> simp_all [Quality.severity, not_and_or, not_lt] <;>
    first | tauto | (constructor <;> linarith) | linarith

theorem severity_cat_le_one_iff (h p : ℝ) :
    (categorizeWaterQuality h p).severity ≤ 1 ↔ h < 50 ∧ p < 2 := by
  unfold categorizeWaterQuality
  split_ifs <;> simp_all [Quality.severity, not_and_or, not_lt] <;>
    first | tauto | (constructor <;> linarith) | linarith

theorem severity_cat_le_two_iff (h p : ℝ) :
    (categorizeWaterQuality h p).severity ≤ 2 ↔ h < 75 ∧ p < 3 := by
  unfold categorizeWaterQuality
  split_ifs <;> simp_all [Quality.severity, not_and_or, not_lt] <;>
    first | tauto | (constructor <;> linarith) | linarith

theorem severity_cat_le_three_iff (h p : ℝ) :
    (categorizeWaterQuality h p).severity ≤ 3 ↔ h < 100 ∧ p < 5 := by
  unfold categorizeWaterQuality
  split_ifs <;> simp_all [Quality.severity, not_and_or, not_lt] <;>
    first | tauto | (constructor <;> linarith) | linarith

theorem severity_cat_mono {h1 h2 p1 p2 : ℝ} (hh : h1 ≤ h2) (hp : p1 ≤ p2) :
    (categorizeWaterQuality h1 p1).severity ≤ (categorizeWaterQuality h2 p2).severity := by
  suffices H : ∀ k : ℕ, (categorizeWaterQuality h2 p2).severity ≤ k →
      (categorizeWaterQuality h1 p1).severity ≤ k by exact H _ le_rfl
  intro k hk
  rcases k with _ | _ | _ | _ | n
  · rw [severity_cat_le_zero_iff] at hk ⊢
    exact ⟨lt_of_le_of_lt hh hk.1, lt_of_le_of_lt hp hk.2⟩
  · rw [severity_cat_le_one_iff] at hk ⊢
    exact ⟨lt_of_le_of_lt hh hk.1, lt_of_le_of_lt hp hk.2⟩
  · rw [severity_cat_le_two_iff] at hk ⊢
    exact ⟨lt_of_le_of_lt hh hk.1, lt_of_le_of_lt hp hk.2⟩
  · rw [severity_cat_le_three_iff] at hk ⊢
    exact ⟨lt_of_le_of_lt hh hk.1, lt_of_le_of_lt hp hk.2⟩
  · exact le_trans (severity_le_four _) (by omega)

/-! ## Helper lemmas: the pollution load index loop -/

theorem foldl_pliStep_fst_zero : ∀ (l : List (String × ℚ)) (acc : ℚ × ℕ),
    acc.1 = 0 → (l.foldl pliStep acc).1 = 0 := by
  intro l
  induction l with
  | nil => intro acc h; exact h
  | cons e rest ih =>
    intro acc h
    simp only [List.foldl_cons]
    apply ih
    unfold pliStep
    rcases WHO_STANDARDS e.1 with _ | s
    · exact h
    · by_cases hs : s ≠ 0 <;> simp [hs, h]

theorem foldl_pliStep_count_le : ∀ (l : List (String × ℚ)) (acc : ℚ × ℕ),
    acc.2 ≤ (l.foldl pliStep acc).2 := by
  intro l
  induction l with
  | nil => intro acc; simp
  | cons e rest ih =>
    intro acc
    simp only [List.foldl_cons]
    refine le_trans ?_ (ih (pliStep acc e))
    unfold pliStep
    rcases WHO_STANDARDS e.1 with _ | s
    · exact le_refl _
    · by_cases hs : s ≠ 0 <;> simp [hs]

theorem foldl_pliStep_zero_mem : ∀ (l : List (String × ℚ)) (acc : ℚ × ℕ),
    (∃ e ∈ l, (∃ s, WHO_STANDARDS e.1 = some s ∧ s ≠ 0) ∧ e.2 = 0) →
    (l.foldl pliStep acc).1 = 0 ∧ acc.2 < (l.foldl pliStep acc).2 := by
  intro l
  induction l with
  | nil => intro acc h; simp at h
  | cons e rest ih =>
    intro acc h
    rcases h with ⟨f, hf, ⟨s, hs, hs0⟩, hf0⟩
    rcases List.mem_cons.mp hf with hfe | hmem
    · rw [hfe] at hs hf0
      simp only [List.foldl_cons]
      constructor
      · apply foldl_pliStep_fst_zero
        simp [pliStep, hs, hs0, hf0]
      · calc acc.2 < (pliStep acc e).2 := by simp [pliStep, hs, hs0]
          _ ≤ _ := foldl_pliStep_count_le _ _
    · simp only [List.foldl_cons]
      have := ih (pliStep acc e) ⟨f, hmem, ⟨s, hs, hs0⟩, hf0⟩
      refine ⟨this.1, lt_of_le_of_lt ?_ this.2⟩
      unfold pliStep
      rcases WHO_STANDARDS e.1 with _ | t
      · exact le_refl _
      · by_cases ht : t ≠ 0 <;> simp [ht]

theorem calculateHPI_panelDouble : calculateHPI panelDouble = 200 := by
  simp [calculateHPI, hpiStep, WHO_STANDARDS, METAL_WEIGHTS, panelDouble, metalNames]
  norm_num

theorem pliData_panelDouble : pliData panelDouble = (512, 9) := by
  simp [pliData, pliStep, WHO_STANDARDS, panelDouble]
  norm_num

theorem calculatePLI_panelDouble : calculatePLI panelDouble = 2 := by
  unfold calculatePLI
  rw [pliData_panelDouble]
  norm_num
  rw [show (512 : ℝ) = (2 : ℝ) ^ (9 : ℕ) by norm_num]
  rw [← Real.rpow_natCast 2 9, ← Real.rpow_mul (by norm_num : (0:ℝ) ≤ 2)]
  norm_num

/-! ## Helper lemmas: the validator loop -/

theorem foldl_valStep_snd (today : String) :
    ∀ (l : List (ℕ × RawRow)) (acc : List String × List WaterSample),
    (l.foldl (valStep today) acc).2 = acc.2 ++ l.filterMap fun ir =>
      if (rowErrors ir.1 ir.2).isEmpty then some (mkSample today ir.1 ir.2) else none := by
  intro l
  induction l with
  | nil => intro acc; simp
  | cons ir rest ih =>
    intro acc
    simp only [List.foldl_cons, List.filterMap_cons, ih]
    unfold valStep
    by_cases he : (rowErrors ir.1 ir.2).isEmpty <;> simp [he]

theorem foldl_valStep_fst (today : String) :
    ∀ (l : List (ℕ × RawRow)) (acc : List String × List WaterSample),
    (l.foldl (valStep today) acc).1 = acc.1 ++ (l.map fun ir => rowErrors ir.1 ir.2).flatten := by
  intro l
  induction l with
  | nil => intro acc; simp
  | cons ir rest ih =>
    intro acc
    simp only [List.foldl_cons, List.map_cons, List.flatten_cons, ih]
    unfold valStep
    by_cases he : (rowErrors ir.1 ir.2).isEmpty <;> simp [he]
    · simp [List.isEmpty_iff.mp he]

theorem validateData_samples_eq (today : String) (data : List RawRow) :
    (validateData today data).samples = data.enum.filterMap fun ir =>
      if (rowErrors ir.1 ir.2).isEmpty then some (mkSample today ir.1 ir.2) else none := by
  cases data with
  | nil => rfl
  | cons r rest =>
    unfold validateData
    simp only []
    rw [foldl_valStep_snd]
    simp

theorem validateData_errors_eq (today : String) (r : RawRow) (rest : List RawRow) :
    (validateData today (r :: rest)).errors =
      headerDiagnostics r ++ ((r :: rest).enum.map fun ir => rowErrors ir.1 ir.2).flatten := by
  unfold validateData
  simp only []
  rw [foldl_valStep_fst]
  simp

theorem enumFrom_map_general {α β : Type} (f : α → β) :
    ∀ (n : ℕ) (l : List α), (l.map f).enumFrom n = (l.enumFrom n).map fun ia => (ia.1, f ia.2) := by
  intro n l
  induction l generalizing n with
  | nil => simp
  | cons a rest ih => simp [List.enumFrom, ih]

theorem enum_map_general {α β : Type} (f : α → β) (l : List α) :
    (l.map f).enum = l.enum.map fun ia => (ia.1, f ia.2) := by
  simp [List.enum, enumFrom_map_general]

theorem mem_of_mem_enum {α : Type} {l : List α} {ia : ℕ × α} (h : ia ∈ l.enum) : ia.2 ∈ l := by
  have := List.mem_enum_iff_getElem?.mp h
  exact List.getElem?_mem this

/-- Row-level validation does not read the sampleDate field. -/
theorem rowErrors_update_sampleDate (i : ℕ) (r : RawRow) (x : String) :
    rowErrors i { r with sampleDate := x } = rowErrors i r := rfl

/-- The accepted metal values do not read the sampleDate field. -/
theorem metalValues_update_sampleDate (r : RawRow) (x : String) :
    metalValues { r with sampleDate := x } = metalValues r := rfl

/-! ## Helper lemmas: the distribution aggregation -/

theorem mem_foldl_firstSeenIns : ∀ (l : List Quality) (acc : List Quality) (x : Quality),
    x ∈ l.foldl firstSeenIns acc ↔ x ∈ acc ∨ x ∈ l := by
  intro l
  induction l with
  | nil => intro acc x; simp
  | cons c rest ih =>
    intro acc x
    simp only [List.foldl_cons, ih, firstSeenIns]
    by_cases hc : c ∈ acc <;> simp [hc, List.mem_cons] <;> constructor <;> intro hh <;>
      first | tauto | (rcases hh with hh | hh; tauto; rcases hh with rfl | hh <;> tauto)

theorem nodup_foldl_firstSeenIns : ∀ (l : List Quality) (acc : List Quality),
    acc.Nodup → (l.foldl firstSeenIns acc).Nodup := by
  intro l
  induction l with
  | nil => intro acc h; exact h
  | cons c rest ih =>
    intro acc h
    simp only [List.foldl_cons]
    apply ih
    unfold firstSeenIns
    by_cases hc : c ∈ acc <;>
      simp [hc, h, List.nodup_append, List.disjoint_singleton]

theorem mem_firstSeen (l : List Quality) (x : Quality) : x ∈ firstSeen l ↔ x ∈ l := by
  unfold firstSeen
  rw [mem_foldl_firstSeenIns]
  simp

theorem nodup_firstSeen (l : List Quality) : (firstSeen l).Nodup :=
  nodup_foldl_firstSeenIns l [] List.nodup_nil

theorem toFinset_firstSeen (l : List Quality) : (firstSeen l).toFinset = l.toFinset := by
  ext x
  simp [List.mem_toFinset, mem_firstSeen]

/-! ## Claim theorems -/

/-- C1 (counterexample): validateData is not a pure function of the rows
alone — it reads the wall clock for the sampleDate default. The same
single valid row with an empty sampleDate, validated on two different
dates, produces different accepted samples, so the two runs have
different output. -/
theorem validateData_clock_counterexample :
    (validateData "2024-01-01" [datelessRow]).samples.map (fun s => s.sampleDate) =
      ["2024-01-01"] ∧
    (validateData "2024-01-02" [datelessRow]).samples.map (fun s => s.sampleDate) =
      ["2024-01-02"] ∧
    validateData "2024-01-01" [datelessRow] ≠ validateData "2024-01-02" [datelessRow] := by
  have e1 : (validateData "2024-01-01" [datelessRow]).samples.map (fun s => s.sampleDate) =
      ["2024-01-01"] := by
    norm_num [validateData, valStep, rowErrors, mkSample, metalValues, headerDiagnostics,
      datelessRow, goodRow, requiredColumns, metalNames, List.enum, List.enumFrom,
      List.filterMap_cons]
  have e2 : (validateData "2024-01-02" [datelessRow]).samples.map (fun s => s.sampleDate) =
      ["2024-01-02"] := by
    norm_num [validateData, valStep, rowErrors, mkSample, metalValues, headerDiagnostics,
      datelessRow, goodRow, requiredColumns, metalNames, List.enum, List.enumFrom,
      List.filterMap_cons]
  refine ⟨e1, e2, fun hcontra => ?_⟩
  have := congrArg (fun v => v.samples.map fun s => s.sampleDate) hcontra
  simp only at this
  rw [e1, e2] at this
  exact absurd this (by decide)

/-- C1 (amended): with the current date held fixed, validateData is a
pure function of the rows (in this embedding that is definitional), and
whenever every row carries a non-empty sampleDate the output does not
depend on the current date at all, so two runs on identical input on
different days agree. -/
theorem validateData_deterministic_of_dated_rows (d1 d2 : String) (data : List RawRow)
    (h : ∀ r ∈ data, r.sampleDate ≠ "") :
    validateData d1 data = validateData d2 data := by
  cases data with
  | nil => rfl
  | cons r rest =>
    have hs : (validateData d1 (r :: rest)).samples =
        (validateData d2 (r :: rest)).samples := by
      rw [validateData_samples_eq, validateData_samples_eq]
      apply List.filterMap_congr
      intro ir hir
      have hmem : ir.2 ∈ r :: rest := mem_of_mem_enum hir
      have hne := h ir.2 hmem
      unfold mkSample
      simp [hne]
    have he : (validateData d1 (r :: rest)).errors =
        (validateData d2 (r :: rest)).errors := by
      rw [validateData_errors_eq, validateData_errors_eq]
    ext : 1
    · show (validateData d1 (r :: rest)).isValid = (validateData d2 (r :: rest)).isValid
      unfold validateData
      simp only []
      rw [foldl_valStep_fst, foldl_valStep_fst]
    · exact he
    · exact hs

/-- C1 (witness): the amended determinism at a concrete dated batch. -/
theorem validateData_deterministic_of_dated_rows_witness :
    validateData "2024-01-01" [goodRow] = validateData "2024-02-02" [goodRow] :=
  validateData_deterministic_of_dated_rows "2024-01-01" "2024-02-02" [goodRow]
    (by
      intro r hr
      rw [List.mem_singleton.mp hr]
      decide)

/-- C2 (counterexample): the attached results are not a function of the
metal panel alone — the selected-index component state also feeds in.
The same sample processed under two selection states receives hpi 200 in
one and hpi 0 in the other. -/
theorem results_depend_on_selection_state :
    (performCalculations ⟨true, true, false⟩ [sampleDouble]).map
        (fun s => s.hmpiResults.map fun r => r.hpi) = [some 200] ∧
    (performCalculations ⟨false, true, false⟩ [sampleDouble]).map
        (fun s => s.hmpiResults.map fun r => r.hpi) = [some 0] := by
  constructor
  · simp [performCalculations, calcResults, sampleDouble, calculateHPI_panelDouble]
  · simp [performCalculations, calcResults, sampleDouble]

/-- C2 (amended): for a fixed selected-index state the attached results
(hpi, pli, cf and qualityCategory) are a function of the metal panel
alone: two samples with equal panels, processed under the same state,
receive equal results whatever their other fields are. -/
theorem results_function_of_metals_given_selection (sel : SelectedIndices)
    (s1 s2 : WaterSample) (h : s1.metals = s2.metals) :
    (performCalculations sel [s1]).map (fun s => s.hmpiResults) =
      (performCalculations sel [s2]).map (fun s => s.hmpiResults) := by
  simp [performCalculations, calcResults, h]

/-- C2 (witness): two concrete samples sharing a panel but nothing else
receive equal results. -/
theorem results_function_of_metals_given_selection_witness :
    (performCalculations ⟨true, true, true⟩ [sampleDouble]).map (fun s => s.hmpiResults) =
      (performCalculations ⟨true, true, true⟩ [sampleDoubleAlt]).map (fun s => s.hmpiResults) :=
  results_function_of_metals_given_selection ⟨true, true, true⟩ sampleDouble sampleDoubleAlt rfl

/-- C3: on the panel with every concentration exactly double its WHO
standard (and the unit weights of METAL_WEIGHTS), calculateHPI returns
exactly 200 and calculatePLI returns exactly 2, in exact (real-number)
arithmetic. -/
theorem hpi_pli_double_standard_values :
    calculateHPI panelDouble = 200 ∧ calculatePLI panelDouble = 2 :=
  ⟨calculateHPI_panelDouble, calculatePLI_panelDouble⟩

/-- C4: categorizeWaterQuality is exactly the ordered cascade with first
match winning: each category is returned precisely when its own pair of 
strict bounds holds and every earlier pair of bounds fails. -/
theorem categorize_cascade_first_match (h p : ℝ) :
    (categorizeWaterQuality h p = .excellent ↔ h < 25 ∧ p < 1) ∧
    (categorizeWaterQuality h p = .good ↔ ¬(h < 25 ∧ p < 1) ∧ (h < 50 ∧ p < 2)) ∧
    (categorizeWaterQuality h p = .moderate ↔
      ¬(h < 25 ∧ p < 1) ∧ ¬(h < 50 ∧ p < 2) ∧ (h < 75 ∧ p < 3)) ∧
    (categorizeWaterQuality h p = .poor ↔
      ¬(h < 25 ∧ p < 1) ∧ ¬(h < 50 ∧ p < 2) ∧ ¬(h < 75 ∧ p < 3) ∧ (h < 100 ∧ p < 5)) ∧
    (categorizeWaterQuality h p = .unsuitable ↔
      ¬(h < 25 ∧ p < 1) ∧ ¬(h < 50 ∧ p < 2) ∧ ¬(h < 75 ∧ p < 3) ∧ ¬(h < 100 ∧ p < 5)) := by
  unfold categorizeWaterQuality
  split_ifs <;> simp_all

/-- C5 (counterexample): at hpi = 50 (pli = 0.5) the strict bound
hpi < 50 fails, so the classifier returns moderate, not the good claimed
by the spec sequence. -/
theorem categorize_at_fifty_counterexample :
    categorizeWaterQuality 50 0.5 = .moderate ∧ Quality.moderate ≠ Quality.good := by
  constructor
  · norm_num [categorizeWaterQuality]
  · decide

/-- C5 (amended): the classifier is monotone in both arguments with
respect to severity, and the boundary sequence at pli = 0.5 for hpi =
24.9, 25, 49.9, 50 is excellent, good, good, moderate (the last value is
moderate, not good, because the bounds are strict). -/
theorem categorize_monotone_and_boundary_sequence :
    (∀ h1 h2 p1 p2 : ℝ, h1 ≤ h2 → p1 ≤ p2 →
      (categorizeWaterQuality h1 p1).severity ≤ (categorizeWaterQuality h2 p2).severity) ∧
    categorizeWaterQuality 24.9 0.5 = .excellent ∧
    categorizeWaterQuality 25 0.5 = .good ∧
    categorizeWaterQuality 49.9 0.5 = .good ∧
    categorizeWaterQuality 50 0.5 = .moderate := by
  refine ⟨fun h1 h2 p1 p2 hh hp => severity_cat_mono hh hp, ?_, ?_, ?_, ?_⟩ <;>
    norm_num [categorizeWaterQuality]

/-- C5 (witness): the monotonicity part applied at concrete points. -/
theorem categorize_monotone_witness :
    (categorizeWaterQuality 10 0.5).severity ≤ (categorizeWaterQuality 60 0.7).severity :=
  categorize_monotone_and_boundary_sequence.1 10 60 0.5 0.7 (by norm_num) (by norm_num)

/-- C6: a metal panel in which some metal matched by the standards table
has concentration 0 always yields PLI exactly 0, whatever the other
concentrations are: the zero contamination factor drives the product,
and hence the geometric mean, to 0. -/
theorem pli_zero_concentration_collapse (metals : List (String × ℚ))
    (h : ∃ e ∈ metals, (∃ s, WHO_STANDARDS e.1 = some s ∧ s ≠ 0) ∧ e.2 = 0) :
    calculatePLI metals = 0 := by
  have hz := foldl_pliStep_zero_mem metals (1, 0) h
  unfold calculatePLI pliData
  rw [if_pos (by simpa using hz.2)]
  rw [hz.1]
  push_cast
  rw [Real.zero_rpow]
  have hn : (0:ℝ) < ((metals.foldl pliStep (1, 0)).2 : ℝ) := by exact_mod_cast hz.2
  exact one_div_ne_zero (ne_of_gt hn)

/-- C6 (witness): the collapse at a concrete panel with As = 0. -/
theorem pli_zero_concentration_collapse_witness : calculatePLI panelWithZero = 0 :=
  pli_zero_concentration_collapse panelWithZero
    ⟨("As", 0), List.mem_cons_self _ _, ⟨0.01, rfl, by norm_num⟩, rfl⟩

/-- C7: row acceptance is all-or-nothing and row-independent: the
accepted samples are exactly the filterMap, over the index-paired input
rows, that keeps a row precisely when its own row-local diagnostics list
is empty (so a row enters samples if and only if it produced zero
diagnostics, and its fate depends on nothing but that row and its
position). -/
theorem row_acceptance_all_or_nothing (today : String) (data : List RawRow) :
    (validateData today data).samples = data.enum.filterMap fun ir =>
      if (rowErrors ir.1 ir.2).isEmpty then some (mkSample today ir.1 ir.2) else none :=
  validateData_samples_eq today data

/-- C8: every accepted sample is identified by its original row position
(sample_ followed by index + 1), and on the concrete batch
[valid, invalid, valid] the accepted ids are sample_1 and sample_3. -/
theorem sample_ids_stable_under_rejection :
    (∀ (today : String) (data : List RawRow),
      (validateData today data).samples.map (fun s => s.id) = data.enum.filterMap fun ir =>
        if (rowErrors ir.1 ir.2).isEmpty then some ("sample_" ++ toString (ir.1 + 1))
        else none) ∧
    (validateData "2024-01-01" [goodRow, badRow, goodRow]).samples.map (fun s => s.id) =
      ["sample_1", "sample_3"] := by
  constructor
  · intro today data
    rw [validateData_samples_eq, List.map_filterMap]
    apply List.filterMap_congr
    intro ir hir
    by_cases he : (rowErrors ir.1 ir.2).isEmpty <;> simp [he, mkSample]
  · norm_num [validateData, valStep, rowErrors, mkSample, metalValues, headerDiagnostics,
      goodRow, badRow, requiredColumns, metalNames, List.enum, List.enumFrom,
      List.filterMap_cons]
    decide

/-- C9 (counterexample): the claimed 0.1 tolerance fails. On sixteen
processed samples split 1, 1, 1, 1, 12 across the five categories, the
four singleton percentages each round from 6.25 up to 6.3 and the big
one is exactly 75.0, so the percentages sum to 100.2 — off by 0.2. -/
theorem distribution_sum_tolerance_counterexample :
    ((qualityDistribution batch16).map (fun e => e.percentage)).sum = 501 / 5 ∧
    ¬(|(501 / 5 : ℚ) - 100| ≤ 1 / 10) := by
  constructor
  · simp [qualityDistribution, batch16, mkCS, mkRes, firstSeen, firstSeenIns, toFixed1,
      List.replicate, List.count_cons]
    norm_num [round_eq]
  · rw [show (501 / 5 : ℚ) - 100 = 1 / 5 by norm_num]
    rw [abs_of_pos (by norm_num : (0 : ℚ) < 1 / 5)]
    norm_num

/-- C9 (amended): for every batch with at least one processed sample,
the percentages of qualityDistribution sum to 100.0 within 0.2 (each of
the at most five groups contributes at most half a rounding unit of
error, and the total error is a whole number of tenths). -/
theorem distribution_sum_within_two_tenths (samples : List WaterSample)
    (h : samples.filterMap (fun s => s.hmpiResults) ≠ []) :
    |((qualityDistribution samples).map (fun e => e.percentage)).sum - 100| ≤ 1/5 := by
  classical
  set P : List HmpiResults := samples.filterMap (fun s => s.hmpiResults) with hP
  set cats : List Quality := P.map (fun r => r.qualityCategory) with hcats
  have hlen : P.length = cats.length := (List.length_map _ _).symm
  have hpos : 0 < cats.length := by
    rw [← hlen]
    exact List.length_pos.mpr h
  have hNpos : (0 : ℚ) < (cats.length : ℚ) := by exact_mod_cast hpos
  have hNne : ((cats.length : ℚ)) ≠ 0 := ne_of_gt hNpos
  have hqd : ((qualityDistribution samples).map (fun e => e.percentage)).sum
      = ∑ c in cats.toFinset, toFixed1 ((cats.count c : ℚ) / (cats.length : ℚ) * 100) := by
    simp only [qualityDistribution]
    rw [← hP, ← hcats, List.map_map, hlen]
    rw [← List.sum_toFinset _ (nodup_firstSeen cats), toFinset_firstSeen]
    rfl
  have hcount : ∑ c in cats.toFinset, ((cats.count c : ℚ)) = (cats.length : ℚ) := by
    have h1 : ∑ c in cats.toFinset, cats.count c = cats.length :=
      List.sum_toFinset_count_eq_length cats
    exact_mod_cast congrArg (fun n : ℕ => (n : ℚ)) h1
  have hexp : ∑ c in cats.toFinset,
      ((cats.count c : ℚ) / (cats.length : ℚ) * 100 * 10) = 1000 := by
    have hterm : ∀ c ∈ cats.toFinset,
        (cats.count c : ℚ) / (cats.length : ℚ) * 100 * 10 =
          (cats.count c : ℚ) * (1000 / (cats.length : ℚ)) := by
      intro c _
      ring
    rw [Finset.sum_congr rfl hterm, ← Finset.sum_mul, hcount]
    field_simp
  set Z : ℤ := ∑ c in cats.toFinset, round ((cats.count c : ℚ) / (cats.length : ℚ) * 100 * 10)
    with hZ
  have hIter : ∑ c in cats.toFinset, toFixed1 ((cats.count c : ℚ) / (cats.length : ℚ) * 100)
      = (Z : ℚ) / 10 := by
    unfold toFixed1
    rw [hZ]
    push_cast
    rw [← Finset.sum_div]
  have hcard : (cats.toFinset.card : ℚ) ≤ 5 := by
    have h1 : cats.toFinset.card ≤ Fintype.card Quality := Finset.card_le_univ _
    have h2 : Fintype.card Quality = 5 := rfl
    exact_mod_cast h2 ▸ h1
  have habs : |(Z : ℚ) - 1000| ≤ 5 / 2 := by
    have hdiff : (Z : ℚ) - 1000 = ∑ c in cats.toFinset,
        (((round ((cats.count c : ℚ) / (cats.length : ℚ) * 100 * 10) : ℤ) : ℚ) -
          (cats.count c : ℚ) / (cats.length : ℚ) * 100 * 10) := by
      rw [Finset.sum_sub_distrib, hexp, hZ]
      push_cast
      ring
    rw [hdiff]
    refine le_trans (Finset.abs_sum_le_sum_abs _ _) ?_
    have hhalf : ∀ c ∈ cats.toFinset,
        |((round ((cats.count c : ℚ) / (cats.length : ℚ) * 100 * 10) : ℤ) : ℚ) -
          (cats.count c : ℚ) / (cats.length : ℚ) * 100 * 10| ≤ 1 / 2 := by
      intro c _
      rw [abs_sub_comm]
      exact abs_sub_round _
    refine le_trans (Finset.sum_le_card_nsmul _ _ _ hhalf) ?_
    rw [nsmul_eq_mul]
    nlinarith [hcard, Nat.cast_nonneg (α := ℚ) cats.toFinset.card]
  have hZint : |Z - 1000| ≤ 2 := by
    have h3 : |(Z : ℚ) - 1000| < 3 := lt_of_le_of_lt habs (by norm_num)
    have h4 : ((|Z - 1000| : ℤ) : ℚ) < 3 := by
      push_cast
      exact h3
    have h5 : |Z - 1000| < 3 := by exact_mod_cast h4
    omega
  rw [hqd, hIter]
  have hre : (Z : ℚ) / 10 - 100 = ((Z : ℚ) - 1000) / 10 := by ring
  rw [hre, abs_div]
  have h6 : |(Z : ℚ) - 1000| ≤ 2 := by
    have hc : ((|Z - 1000| : ℤ) : ℚ) ≤ 2 := by exact_mod_cast hZint
    rw [Int.cast_abs] at hc
    push_cast at hc
    exact hc
  rw [show |(10 : ℚ)| = 10 by norm_num]
  linarith

/-- C9 (witness): the amended bound at a concrete one-sample batch. -/
theorem distribution_sum_within_two_tenths_witness :
    |((qualityDistribution batchOne).map (fun e => e.percentage)).sum - 100| ≤ 1/5 :=
  distribution_sum_within_two_tenths batchOne (by simp [batchOne, mkCS])

/-- C10: validation never inspects the sampleDate content: rewriting
every sampleDate to an arbitrary non-empty string changes no diagnostic
and no acceptance decision, and the string is stored verbatim on every
accepted sample (only the empty or absent cell triggers the
current-date default). -/
theorem sampleDate_never_inspected (today : String) (data : List RawRow) (x : String)
    (hx : x ≠ "") :
    (validateData today (data.map fun r => { r with sampleDate := x })).errors =
      (validateData today data).errors ∧
    (validateData today (data.map fun r => { r with sampleDate := x })).samples =
      (validateData today data).samples.map fun s => { s with sampleDate := x } := by
  cases data with
  | nil => exact ⟨rfl, rfl⟩
  | cons r rest =>
    have hcons : (r :: rest).map (fun r => { r with sampleDate := x }) =
        ({ r with sampleDate := x } :: rest.map fun r => { r with sampleDate := x }) :=
      List.map_cons _ _ _
    constructor
    · rw [hcons, validateData_errors_eq, validateData_errors_eq, ← hcons, enum_map_general,
        List.map_map]
      congr 1
    · rw [validateData_samples_eq, validateData_samples_eq, enum_map_general,
        List.filterMap_map, List.map_filterMap]
      apply List.filterMap_congr
      intro ir hir
      simp only [Function.comp]
      rw [rowErrors_update_sampleDate]
      by_cases he : (rowErrors ir.1 ir.2).isEmpty <;>
        simp [he, mkSample, hx, metalValues_update_sampleDate]

/-- C10 (witness): the invariance at a concrete batch and a string that
is not a calendar date. -/
theorem sampleDate_never_inspected_witness :
    (validateData "2024-01-01" ([goodRow].map fun r => { r with sampleDate := "not-a-date" })).errors =
      (validateData "2024-01-01" [goodRow]).errors ∧
    (validateData "2024-01-01" ([goodRow].map fun r => { r with sampleDate := "not-a-date" })).samples =
      (validateData "2024-01-01" [goodRow]).samples.map fun s => { s with sampleDate := "not-a-date" } :=
  sampleDate_never_inspected "2024-01-01" [goodRow] "not-a-date" (by decide)
